import Mathlib

/-!
Verification development for the SORT multi-object tracker of
`scuba_tracking/utils/sort.py`.

The numeric code operates on numpy float arrays; the shallow embedding uses
exact ordered-field arithmetic instead (a generic `LinearOrderedField` for the
geometry and association engine, `ℝ` for the Kalman motion model whose box
conversion takes a square root, and `ℚ` for executable witnesses).  IEEE
special values (NaN/inf), which matter only for the degeneracy filter in
`Sort.update`, are modelled separately with an explicit value type `RVal`.
-/

namespace SortTrack

/-- A detection (or predicted-tracker) row: a numpy row whose first six columns
are `x1, y1, x2, y2, confidence, class`, modelled as a function out of
`Fin 6`. -/
def Det (α : Type) : Type := Fin 6 → α

section Assoc

variable {α : Type} [LinearOrderedField α]

/-- Entrywise translation of `iou_batch` (sort.py lines 13-27).  The numpy
broadcasting computes, at row `i` (box `bb_test[i]`) and column `j` (box
`bb_gt[j]`), exactly the scalar expression below. -/
def iou_batch {n m : ℕ} (bb_test : Fin n → Det α) (bb_gt : Fin m → Det α) :
    Matrix (Fin n) (Fin m) α :=
  Matrix.of fun i j =>
    let xx1 := max (bb_test i 0) (bb_gt j 0)
    let yy1 := max (bb_test i 1) (bb_gt j 1)
    let xx2 := min (bb_test i 2) (bb_gt j 2)
    let yy2 := min (bb_test i 3) (bb_gt j 3)
    let w := max 0 (xx2 - xx1)
    let h := max 0 (yy2 - yy1)
    let wh := w * h
    wh / ((bb_test i 2 - bb_test i 0) * (bb_test i 3 - bb_test i 1)
      + (bb_gt j 2 - bb_gt j 0) * (bb_gt j 3 - bb_gt j 1) - wh)

/-- Intersection area of two axis-aligned corner-form boxes (the spec's
"intersection area", used to compare `iou_batch` against the spec's wording). -/
def interArea (b g : Det α) : α :=
  max 0 (min (b 2) (g 2) - max (b 0) (g 0)) * max 0 (min (b 3) (g 3) - max (b 1) (g 1))

/-- Area of a corner-form box. -/
def boxArea (b : Det α) : α := (b 2 - b 0) * (b 3 - b 1)

/-- The matrix `(iou_matrix > iou_threshold).astype(np.int32)` of sort.py
line 128. -/
def threshMatrix {n m : ℕ} (iou_matrix : Matrix (Fin n) (Fin m) α) (iou_threshold : α) :
    Matrix (Fin n) (Fin m) ℕ :=
  Matrix.of fun i j => if iou_threshold < iou_matrix i j then 1 else 0

/-- The fast-path test of sort.py line 129:
`a.sum(1).max() == 1 and a.sum(0).max() == 1`. -/
def fastPathCond {n m : ℕ} (a : Matrix (Fin n) (Fin m) ℕ) : Prop :=
  (Finset.univ.sup fun i => ∑ j, a i j) = 1 ∧ (Finset.univ.sup fun j => ∑ i, a i j) = 1

instance fastPathCondDec {n m : ℕ} (a : Matrix (Fin n) (Fin m) ℕ) :
    Decidable (fastPathCond a) := by
  unfold fastPathCond
  infer_instance

/-- The pair list `np.stack(np.where(a), axis=1)` of sort.py line 130:
the positions of the nonzero entries of `a` in row-major order. -/
def wherePairs {n m : ℕ} (a : Matrix (Fin n) (Fin m) ℕ) : List (Fin n × Fin m) :=
  (List.finRange n).flatMap fun i =>
    (List.finRange m).filterMap fun j => if a i j ≠ 0 then some (i, j) else none

/-- Result triple of `associate_detections_to_trackers`: matched index pairs,
unmatched detection indices and unmatched tracker indices. -/
structure AssocResult (n m : ℕ) where
  matches' : List (Fin n × Fin m)
  unmatched_detections : List (Fin n)
  unmatched_trackers : List (Fin m)
  deriving DecidableEq

/-- Lines 136-158 of sort.py, as a function of the chosen `matched_indices`
list: collect the detections and trackers that appear in no pair, then walk the
pairs in order, rejecting (and appending to the unmatched lists) any pair whose
IoU is below the threshold and keeping the rest as matches. -/
def assocFinalize {n m : ℕ} (iou_matrix : Matrix (Fin n) (Fin m) α) (iou_threshold : α)
    (matched_indices : List (Fin n × Fin m)) : AssocResult n m :=
  let unmatched_detections :=
    (List.finRange n).filter fun d => decide (d ∉ matched_indices.map Prod.fst)
  let unmatched_trackers :=
    (List.finRange m).filter fun t => decide (t ∉ matched_indices.map Prod.snd)
  let final := matched_indices.foldl
    (fun (acc : List (Fin n × Fin m) × List (Fin n) × List (Fin m)) p =>
      if iou_matrix p.1 p.2 < iou_threshold then
        (acc.1, acc.2.1 ++ [p.1], acc.2.2 ++ [p.2])
      else
        (acc.1 ++ [p], acc.2.1, acc.2.2))
    ([], unmatched_detections, unmatched_trackers)
  ⟨final.1, final.2.1, final.2.2⟩

/-- A list of index pairs is a partial matching: no detection index and no
tracker index is used twice. -/
def IsMatching {n m : ℕ} (pairs : List (Fin n × Fin m)) : Prop :=
  pairs.Pairwise fun p q => p.1 ≠ q.1 ∧ p.2 ≠ q.2

/-- Total cost of a pair list under a cost matrix. -/
def matchingCost {n m : ℕ} (cost : Matrix (Fin n) (Fin m) α) (pairs : List (Fin n × Fin m)) : α :=
  (pairs.map fun p => cost p.1 p.2).sum

/-- Modelled from the spec: `linear_assignment` (sort.py lines 5-7) wraps
`scipy.optimize.linear_sum_assignment`, whose code is not part of this
repository.  Per the spec it solves the assignment problem optimally: the
returned pair list is a matching of maximal size `min n m` whose total cost is
minimal among all such matchings. -/
def IsLinearAssignmentResult {n m : ℕ} (cost : Matrix (Fin n) (Fin m) α)
    (pairs : List (Fin n × Fin m)) : Prop :=
  IsMatching pairs ∧ pairs.length = min n m ∧
    ∀ q, IsMatching q → q.length = min n m → matchingCost cost pairs ≤ matchingCost cost q

/-- `associate_detections_to_trackers` (sort.py lines 118-160), parameterized
by the external assignment solver used on the general path. -/
def associate_detections_to_trackers
    (solver : (n m : ℕ) → Matrix (Fin n) (Fin m) α → List (Fin n × Fin m))
    {n m : ℕ} (detections : Fin n → Det α) (trackers : Fin m → Det α)
    (iou_threshold : α) : AssocResult n m :=
  if m = 0 then ⟨[], List.finRange n, []⟩
  else
    let iou_matrix := iou_batch detections trackers
    let matched_indices : List (Fin n × Fin m) :=
      if 0 < min n m then
        let a := threshMatrix iou_matrix iou_threshold
        if fastPathCond a then wherePairs a
        else solver n m (-iou_matrix)
      else []
    assocFinalize iou_matrix iou_threshold matched_indices

end Assoc

section IouProps

variable {α : Type} [LinearOrderedField α]

lemma interArea_nonneg (b g : Det α) : 0 ≤ interArea b g :=
  mul_nonneg (le_max_left _ _) (le_max_left _ _)

lemma interArea_le_left (b g : Det α) (hw : b 0 < b 2) (hh : b 1 < b 3) :
    interArea b g ≤ boxArea b := by
  unfold interArea boxArea
  have h1 : max 0 (min (b 2) (g 2) - max (b 0) (g 0)) ≤ b 2 - b 0 := by
    apply max_le (by linarith)
    have := min_le_left (b 2) (g 2)
    have := le_max_left (b 0) (g 0)
    linarith
  have h2 : max 0 (min (b 3) (g 3) - max (b 1) (g 1)) ≤ b 3 - b 1 := by
    apply max_le (by linarith)
    have := min_le_left (b 3) (g 3)
    have := le_max_left (b 1) (g 1)
    linarith
  exact mul_le_mul h1 h2 (le_max_left _ _) (by linarith)

lemma interArea_le_right (b g : Det α) (hw : g 0 < g 2) (hh : g 1 < g 3) :
    interArea b g ≤ boxArea g := by
  unfold interArea boxArea
  have h1 : max 0 (min (b 2) (g 2) - max (b 0) (g 0)) ≤ g 2 - g 0 := by
    apply max_le (by linarith)
    have := min_le_right (b 2) (g 2)
    have := le_max_right (b 0) (g 0)
    linarith
  have h2 : max 0 (min (b 3) (g 3) - max (b 1) (g 1)) ≤ g 3 - g 1 := by
    apply max_le (by linarith)
    have := min_le_right (b 3) (g 3)
    have := le_max_right (b 1) (g 1)
    linarith
  exact mul_le_mul h1 h2 (le_max_left _ _) (by linarith)

lemma iou_batch_eq_inter_div {n m : ℕ} (bb_test : Fin n → Det α) (bb_gt : Fin m → Det α)
    (i : Fin n) (j : Fin m) :
    iou_batch bb_test bb_gt i j
      = interArea (bb_test i) (bb_gt j)
        / (boxArea (bb_test i) + boxArea (bb_gt j) - interArea (bb_test i) (bb_gt j)) := by
  rfl

lemma interArea_self (b : Det α) (hw : b 0 < b 2) (hh : b 1 < b 3) :
    interArea b b = boxArea b := by
  unfold interArea boxArea
  rw [min_self, max_self, min_self, max_self,
    max_eq_right (by linarith : (0 : α) ≤ b 2 - b 0),
    max_eq_right (by linarith : (0 : α) ≤ b 3 - b 1)]

lemma interArea_comm (b g : Det α) : interArea b g = interArea g b := by
  unfold interArea
  rw [min_comm (b 2), max_comm (b 0), min_comm (b 3), max_comm (b 1)]

end IouProps

/-- C7: for well-formed boxes (positive width and height), each entry of
`iou_batch` is the intersection area of the two boxes divided by their union
area; an entry is 1 when the two boxes are identical, 0 when they are
disjoint, the matrix is symmetric in its two box arguments, and every entry
lies in the interval `[0, 1]`. -/
theorem C7_iou_batch_props {α : Type} [LinearOrderedField α] {n m : ℕ}
    (bb_test : Fin n → Det α) (bb_gt : Fin m → Det α) (i : Fin n) (j : Fin m)
    (hw1 : bb_test i 0 < bb_test i 2) (hh1 : bb_test i 1 < bb_test i 3)
    (hw2 : bb_gt j 0 < bb_gt j 2) (hh2 : bb_gt j 1 < bb_gt j 3) :
    iou_batch bb_test bb_gt i j
        = interArea (bb_test i) (bb_gt j)
          / (boxArea (bb_test i) + boxArea (bb_gt j) - interArea (bb_test i) (bb_gt j))
      ∧ (bb_gt j = bb_test i → iou_batch bb_test bb_gt i j = 1)
      ∧ ((min (bb_test i 2) (bb_gt j 2) ≤ max (bb_test i 0) (bb_gt j 0)
            ∨ min (bb_test i 3) (bb_gt j 3) ≤ max (bb_test i 1) (bb_gt j 1)) →
          iou_batch bb_test bb_gt i j = 0)
      ∧ iou_batch bb_test bb_gt i j = iou_batch bb_gt bb_test j i
      ∧ 0 ≤ iou_batch bb_test bb_gt i j ∧ iou_batch bb_test bb_gt i j ≤ 1 := by
  have hA1 : 0 < boxArea (bb_test i) := mul_pos (by linarith) (by linarith)
  have hA2 : 0 < boxArea (bb_gt j) := mul_pos (by linarith) (by linarith)
  have hI0 : 0 ≤ interArea (bb_test i) (bb_gt j) := interArea_nonneg _ _
  have hI1 : interArea (bb_test i) (bb_gt j) ≤ boxArea (bb_test i) :=
    interArea_le_left _ _ hw1 hh1
  have hI2 : interArea (bb_test i) (bb_gt j) ≤ boxArea (bb_gt j) :=
    interArea_le_right _ _ hw2 hh2
  have hden : 0 < boxArea (bb_test i) + boxArea (bb_gt j) - interArea (bb_test i) (bb_gt j) := by
    linarith
  refine ⟨iou_batch_eq_inter_div bb_test bb_gt i j, ?_, ?_, ?_, ?_, ?_⟩
  · intro hgb
    rw [iou_batch_eq_inter_div, hgb, interArea_self _ hw1 hh1]
    have : boxArea (bb_test i) + boxArea (bb_test i) - boxArea (bb_test i)
        = boxArea (bb_test i) := by ring
    rw [this, div_self (ne_of_gt hA1)]
  · intro h
    rw [iou_batch_eq_inter_div]
    have hz : interArea (bb_test i) (bb_gt j) = 0 := by
      unfold interArea
      rcases h with h | h
      · rw [max_eq_left (by linarith : min (bb_test i 2) (bb_gt j 2)
            - max (bb_test i 0) (bb_gt j 0) ≤ (0 : α)), zero_mul]
      · rw [max_eq_left (by linarith : min (bb_test i 3) (bb_gt j 3)
            - max (bb_test i 1) (bb_gt j 1) ≤ (0 : α)), mul_zero]
    rw [hz, zero_div]
  · rw [iou_batch_eq_inter_div, iou_batch_eq_inter_div,
      interArea_comm (bb_test i) (bb_gt j), add_comm (boxArea (bb_test i))]
  · rw [iou_batch_eq_inter_div]
    exact div_nonneg hI0 (le_of_lt hden)
  · rw [iou_batch_eq_inter_div]
    rw [div_le_one hden]
    linarith

/-- Concrete detection box for the executable IoU witness. -/
def wbox1 : Det ℚ := ![0, 0, 2, 2, 1, 0]

/-- Concrete ground-truth box for the executable IoU witness. -/
def wbox2 : Det ℚ := ![1, 1, 3, 3, 1, 0]

/-- Single-row detection array for the IoU witness. -/
def wdets : Fin 1 → Det ℚ := fun _ => wbox1

/-- Single-row tracker array for the IoU witness. -/
def wtrks : Fin 1 → Det ℚ := fun _ => wbox2

/-- Witness for C7 at the concrete rational boxes `wbox1`, `wbox2`. -/
theorem C7_iou_batch_props_witness :
    (wdets 0 0 < wdets 0 2 ∧ wdets 0 1 < wdets 0 3
      ∧ wtrks 0 0 < wtrks 0 2 ∧ wtrks 0 1 < wtrks 0 3)
    ∧ (iou_batch wdets wtrks 0 0
        = interArea (wdets 0) (wtrks 0)
          / (boxArea (wdets 0) + boxArea (wtrks 0) - interArea (wdets 0) (wtrks 0))
      ∧ (wtrks 0 = wdets 0 → iou_batch wdets wtrks 0 0 = 1)
      ∧ ((min (wdets 0 2) (wtrks 0 2) ≤ max (wdets 0 0) (wtrks 0 0)
            ∨ min (wdets 0 3) (wtrks 0 3) ≤ max (wdets 0 1) (wtrks 0 1)) →
          iou_batch wdets wtrks 0 0 = 0)
      ∧ iou_batch wdets wtrks 0 0 = iou_batch wtrks wdets 0 0
      ∧ 0 ≤ iou_batch wdets wtrks 0 0 ∧ iou_batch wdets wtrks 0 0 ≤ 1) :=
  ⟨⟨by decide, by decide, by decide, by decide⟩,
    C7_iou_batch_props wdets wtrks 0 0 (by decide) (by decide) (by decide) (by decide)⟩

section FastPath

variable {α : Type} [LinearOrderedField α]

/-- If no pair of the matched list falls below the threshold, the post-filter
fold of `assocFinalize` keeps every pair and leaves the unmatched lists
untouched. -/
lemma foldl_keep {n m : ℕ} (M : Matrix (Fin n) (Fin m) α) (θ : α) :
    ∀ (l : List (Fin n × Fin m)), (∀ p ∈ l, ¬ M p.1 p.2 < θ) →
      ∀ acc : List (Fin n × Fin m) × List (Fin n) × List (Fin m),
        l.foldl
          (fun (acc : List (Fin n × Fin m) × List (Fin n) × List (Fin m)) p =>
            if M p.1 p.2 < θ then
              (acc.1, acc.2.1 ++ [p.1], acc.2.2 ++ [p.2])
            else
              (acc.1 ++ [p], acc.2.1, acc.2.2)) acc
          = (acc.1 ++ l, acc.2)
  | [], _, acc => by simp
  | p :: l, h, acc => by
    rw [List.foldl_cons, if_neg (h p (by simp))]
    rw [foldl_keep M θ l (fun q hq => h q (by simp [hq])) _]
    simp

/-- Every pair produced by `wherePairs` on the thresholded matrix has IoU
strictly above the threshold. -/
lemma wherePairs_lt {n m : ℕ} (M : Matrix (Fin n) (Fin m) α) (θ : α)
    (p : Fin n × Fin m) (hp : p ∈ wherePairs (threshMatrix M θ)) : θ < M p.1 p.2 := by
  unfold wherePairs at hp
  rw [List.mem_flatMap] at hp
  obtain ⟨i, -, hi⟩ := hp
  rw [List.mem_filterMap] at hi
  obtain ⟨j, -, hj⟩ := hi
  by_cases hc : threshMatrix M θ i j ≠ 0
  · rw [if_pos hc] at hj
    obtain rfl : (i, j) = p := Option.some_injective _ hj
    by_contra hno
    apply hc
    unfold threshMatrix
    simp [hno]
  · rw [if_neg hc] at hj
    exact absurd hj (by simp)

/-- The fast path never rejects a pair in the post-filter: its result is the
thresholded matching itself, with the complements unmatched. -/
lemma assocFinalize_wherePairs (M : Matrix (Fin n) (Fin m) α) (θ : α) :
    assocFinalize M θ (wherePairs (threshMatrix M θ))
      = ⟨wherePairs (threshMatrix M θ),
          (List.finRange n).filter
            (fun d => decide (d ∉ (wherePairs (threshMatrix M θ)).map Prod.fst)),
          (List.finRange m).filter
            (fun t => decide (t ∉ (wherePairs (threshMatrix M θ)).map Prod.snd))⟩ := by
  simp only [assocFinalize]
  rw [foldl_keep M θ _ (fun p hp => not_lt_of_gt (wherePairs_lt M θ p hp))]
  simp

/-- `fastPathCond` forces both dimensions to be positive. -/
lemma fastPathCond_pos {n m : ℕ} {a : Matrix (Fin n) (Fin m) ℕ}
    (h : fastPathCond a) : 0 < n ∧ 0 < m := by
  obtain ⟨h1, h2⟩ := h
  constructor
  · by_contra hn
    have : n = 0 := by omega
    subst this
    simp [Finset.sup_eq_bot_iff] at h1
  · by_contra hm
    have : m = 0 := by omega
    subst this
    simp [Finset.sup_eq_bot_iff] at h2

end FastPath

/-- C4 (amended): whenever thresholding the IoU matrix yields at most one
above-threshold entry per row and per column, the fast path keeps every
thresholded pair through the sub-threshold post-filter: its matches are
exactly the strictly-above-threshold pairs (in row-major order) and the
unmatched lists are the complements; moreover, whenever the code's fast-path
test holds, `associate_detections_to_trackers` returns exactly this result no
matter which assignment solver is supplied.  (The original claim — that this
always coincides with the optimal-assignment path followed by the post-filter
— is refuted by `C4_counterexample`.) -/
theorem C4_fast_path_amended {α : Type} [LinearOrderedField α] {n m : ℕ}
    (dets : Fin n → Det α) (trks : Fin m → Det α) (θ : α)
    (_hrow : ∀ i, ∑ j, threshMatrix (iou_batch dets trks) θ i j ≤ 1)
    (_hcol : ∀ j, ∑ i, threshMatrix (iou_batch dets trks) θ i j ≤ 1) :
    (assocFinalize (iou_batch dets trks) θ
        (wherePairs (threshMatrix (iou_batch dets trks) θ))).matches'
      = wherePairs (threshMatrix (iou_batch dets trks) θ)
    ∧ (∀ p ∈ wherePairs (threshMatrix (iou_batch dets trks) θ),
        θ < iou_batch dets trks p.1 p.2)
    ∧ (assocFinalize (iou_batch dets trks) θ
        (wherePairs (threshMatrix (iou_batch dets trks) θ))).unmatched_detections
      = (List.finRange n).filter
          (fun d => decide (d ∉ (wherePairs (threshMatrix (iou_batch dets trks) θ)).map Prod.fst))
    ∧ (assocFinalize (iou_batch dets trks) θ
        (wherePairs (threshMatrix (iou_batch dets trks) θ))).unmatched_trackers
      = (List.finRange m).filter
          (fun t => decide (t ∉ (wherePairs (threshMatrix (iou_batch dets trks) θ)).map Prod.snd))
    ∧ (∀ solver, fastPathCond (threshMatrix (iou_batch dets trks) θ) →
        associate_detections_to_trackers solver dets trks θ
          = assocFinalize (iou_batch dets trks) θ
              (wherePairs (threshMatrix (iou_batch dets trks) θ))) := by
  refine ⟨?_, fun p hp => wherePairs_lt _ _ p hp, ?_, ?_, ?_⟩
  · rw [assocFinalize_wherePairs]
  · rw [assocFinalize_wherePairs]
  · rw [assocFinalize_wherePairs]
  · intro solver hfast
    obtain ⟨hn, hm⟩ := fastPathCond_pos hfast
    simp only [associate_detections_to_trackers]
    rw [if_neg (by omega : ¬ m = 0), if_pos (lt_min_iff.mpr ⟨hn, hm⟩), if_pos hfast]

/-- Detections for the C4 counterexample: two unit-height boxes on the x-axis,
`[0,0,3,1]` and `[2,0,6,1]`. -/
def cdets : Fin 2 → Det ℚ := ![![0, 0, 3, 1, 1, 0], ![2, 0, 6, 1, 1, 0]]

/-- Predicted tracker boxes for the C4 counterexample: `[1,0,4,1]` and
`[-2,0,2,1]`.  The resulting IoU matrix is `[[1/2, 2/5], [2/5, 0]]`. -/
def ctrks : Fin 2 → Det ℚ := ![![1, 0, 4, 1, 1, 0], ![-2, 0, 2, 1, 1, 0]]

/-- The unique optimal assignment for cost `-iou_batch cdets ctrks`: total IoU
`2/5 + 2/5 = 4/5`, beating the fast-path choice `1/2 + 0`. -/
def copt : List (Fin 2 × Fin 2) := [(0, 1), (1, 0)]

lemma ciou00 : iou_batch cdets ctrks 0 0 = 1 / 2 := by
  norm_num [iou_batch, cdets, ctrks]

lemma ciou01 : iou_batch cdets ctrks 0 1 = 2 / 5 := by
  norm_num [iou_batch, cdets, ctrks]

lemma ciou10 : iou_batch cdets ctrks 1 0 = 2 / 5 := by
  norm_num [iou_batch, cdets, ctrks]

lemma ciou11 : iou_batch cdets ctrks 1 1 = 0 := by
  norm_num [iou_batch, cdets, ctrks]

lemma cthresh :
    threshMatrix (iou_batch cdets ctrks) (2 / 5) = Matrix.of ![![1, 0], ![0, 0]] := by
  funext i j
  fin_cases i <;> fin_cases j <;>
    simp [threshMatrix, ciou00, ciou01, ciou10, ciou11] <;> norm_num

lemma cwhere :
    wherePairs (threshMatrix (iou_batch cdets ctrks) (2 / 5)) = [(0, 0)] := by
  rw [cthresh]
  decide

lemma fast_eval :
    assocFinalize (iou_batch cdets ctrks) (2 / 5)
        (wherePairs (threshMatrix (iou_batch cdets ctrks) (2 / 5)))
      = ⟨[(0, 0)], [1], [1]⟩ := by
  rw [cwhere]
  simp only [assocFinalize, List.foldl_cons, List.foldl_nil]
  rw [if_neg (by rw [ciou00]; norm_num)]
  rfl

lemma gen_eval :
    assocFinalize (iou_batch cdets ctrks) (2 / 5) copt
      = ⟨[(0, 1), (1, 0)], [], []⟩ := by
  simp only [assocFinalize, copt, List.foldl_cons, List.foldl_nil]
  rw [if_neg (by rw [ciou10]; norm_num), if_neg (by rw [ciou01]; norm_num)]
  rfl

lemma copt_optimal :
    IsLinearAssignmentResult (-(iou_batch cdets ctrks)) copt := by
  refine ⟨by unfold IsMatching copt; decide, by decide, ?_⟩
  intro q hm hl
  rcases q with - | ⟨⟨a, b⟩, q⟩
  · simp at hl
  rcases q with - | ⟨⟨c, d⟩, q⟩
  · simp at hl
  rcases q with - | ⟨p3, q⟩
  · have hAB : (a ≠ c ∧ b ≠ d) := (List.pairwise_cons.mp hm).1 (c, d) (by simp)
    fin_cases a <;> fin_cases b <;> fin_cases c <;> fin_cases d <;>
      first
        | exact absurd rfl hAB.1
        | exact absurd rfl hAB.2
        | (simp only [matchingCost, copt, List.map_cons, List.map_nil, List.sum_cons,
            List.sum_nil, Matrix.neg_apply, Fin.mk_zero, Fin.mk_one,
            ciou00, ciou01, ciou10, ciou11]
           norm_num)
  · simp at hl

/-- C4 is false as stated: at threshold `2/5`, the thresholded IoU matrix of
`cdets`/`ctrks` has at most one above-threshold entry per row and per column
(only the `(0,0)` entry, with IoU `1/2`), yet the fast path keeps the single
pair `(0,0)` while the optimal-assignment path prefers the pairs `(0,1)` and
`(1,0)` (total IoU `4/5 > 1/2`), both of which survive the `< threshold`
post-filter because their IoU equals the threshold exactly.  The two paths
therefore return different association results. -/
theorem C4_counterexample :
    ¬ (∀ (n m : ℕ) (dets : Fin n → Det ℚ) (trks : Fin m → Det ℚ) (θ : ℚ),
        (∀ i, ∑ j, threshMatrix (iou_batch dets trks) θ i j ≤ 1) →
        (∀ j, ∑ i, threshMatrix (iou_batch dets trks) θ i j ≤ 1) →
        ∀ pairs, IsLinearAssignmentResult (-(iou_batch dets trks)) pairs →
          assocFinalize (iou_batch dets trks) θ
              (wherePairs (threshMatrix (iou_batch dets trks) θ))
            = assocFinalize (iou_batch dets trks) θ pairs) := by
  intro h
  have hc := h 2 2 cdets ctrks (2 / 5)
    (by simp only [cthresh]; decide) (by simp only [cthresh]; decide) copt copt_optimal
  rw [fast_eval, gen_eval] at hc
  have := congrArg AssocResult.unmatched_detections hc
  simp at this

/-- Witness for the amended C4 at the concrete rational boxes `cdets`/`ctrks`
and threshold `2/5` (where the code fast-path test indeed holds). -/
theorem C4_fast_path_amended_witness :
    ((∀ i, ∑ j, threshMatrix (iou_batch cdets ctrks) (2 / 5) i j ≤ 1)
      ∧ (∀ j, ∑ i, threshMatrix (iou_batch cdets ctrks) (2 / 5) i j ≤ 1)
      ∧ fastPathCond (threshMatrix (iou_batch cdets ctrks) (2 / 5)))
    ∧ ((assocFinalize (iou_batch cdets ctrks) (2 / 5)
          (wherePairs (threshMatrix (iou_batch cdets ctrks) (2 / 5)))).matches'
        = wherePairs (threshMatrix (iou_batch cdets ctrks) (2 / 5))
      ∧ (∀ p ∈ wherePairs (threshMatrix (iou_batch cdets ctrks) (2 / 5)),
          (2 / 5 : ℚ) < iou_batch cdets ctrks p.1 p.2)
      ∧ (assocFinalize (iou_batch cdets ctrks) (2 / 5)
          (wherePairs (threshMatrix (iou_batch cdets ctrks) (2 / 5)))).unmatched_detections
        = (List.finRange 2).filter
            (fun d => decide
              (d ∉ (wherePairs (threshMatrix (iou_batch cdets ctrks) (2 / 5))).map Prod.fst))
      ∧ (assocFinalize (iou_batch cdets ctrks) (2 / 5)
          (wherePairs (threshMatrix (iou_batch cdets ctrks) (2 / 5)))).unmatched_trackers
        = (List.finRange 2).filter
            (fun t => decide
              (t ∉ (wherePairs (threshMatrix (iou_batch cdets ctrks) (2 / 5))).map Prod.snd))
      ∧ (∀ solver, fastPathCond (threshMatrix (iou_batch cdets ctrks) (2 / 5)) →
          associate_detections_to_trackers solver cdets ctrks (2 / 5)
            = assocFinalize (iou_batch cdets ctrks) (2 / 5)
                (wherePairs (threshMatrix (iou_batch cdets ctrks) (2 / 5))))) :=
  ⟨⟨by simp only [cthresh]; decide, by simp only [cthresh]; decide,
      by rw [cthresh]; decide⟩,
    C4_fast_path_amended cdets ctrks (2 / 5)
      (by simp only [cthresh]; decide) (by simp only [cthresh]; decide)⟩

noncomputable section Kalman

/-- `convert_bbox_to_z` (sort.py lines 31-40): corner-form box (plus
confidence) to the measurement vector `[x, y, s, r, conf]` with center
`(x, y)`, area `s` and aspect ratio `r`. -/
def convert_bbox_to_z (bbox : Det ℝ) : Fin 5 → ℝ :=
  let w := bbox 2 - bbox 0
  let h := bbox 3 - bbox 1
  let x := bbox 0 + w / 2
  let y := bbox 1 + h / 2
  let s := w * h
  let conf := bbox 4
  let r := w / h
  ![x, y, s, r, conf]

/-- `convert_x_to_bbox` (sort.py lines 44-47): reads the first five components
of the state and reconstructs `[x1, y1, x2, y2, conf]` via
`w = sqrt(s * r)`, `h = s / w`. -/
def convert_x_to_bbox (x : Fin 5 → ℝ) : Fin 5 → ℝ :=
  let w := Real.sqrt (x 2 * x 3)
  let h := x 2 / w
  ![x 0 - w / 2, x 1 - h / 2, x 0 + w / 2, x 1 + h / 2, x 4]

/-- State-transition matrix `kf.F` (sort.py line 58). -/
def Fmat : Matrix (Fin 8) (Fin 8) ℝ :=
  !![1,0,0,0,0,1,0,0; 0,1,0,0,0,0,1,0; 0,0,1,0,0,0,0,1; 0,0,0,1,0,0,0,0;
     0,0,0,0,1,0,0,0; 0,0,0,0,0,1,0,0; 0,0,0,0,0,0,1,0; 0,0,0,0,0,0,0,1]

/-- Measurement matrix `kf.H` (sort.py line 59). -/
def Hmat : Matrix (Fin 5) (Fin 8) ℝ :=
  !![1,0,0,0,0,0,0,0; 0,1,0,0,0,0,0,0; 0,0,1,0,0,0,0,0; 0,0,0,1,0,0,0,0;
     0,0,0,0,1,0,0,0]

/-- Measurement noise `kf.R`: the filterpy default `eye(5)` after
`R[2:,2:] *= 10.` (sort.py line 61), i.e. `diag(1, 1, 10, 10, 10)`. -/
def Rmat : Matrix (Fin 5) (Fin 5) ℝ :=
  !![1,0,0,0,0; 0,1,0,0,0; 0,0,10,0,0; 0,0,0,10,0; 0,0,0,0,10]

/-- Initial covariance `kf.P`: the filterpy default `eye(8)` after
`P[5:,5:] *= 1000.` and `P *= 10.` (sort.py lines 62-63), i.e.
`diag(10, 10, 10, 10, 10, 10000, 10000, 10000)`. -/
def Pmat0 : Matrix (Fin 8) (Fin 8) ℝ :=
  !![10,0,0,0,0,0,0,0; 0,10,0,0,0,0,0,0; 0,0,10,0,0,0,0,0; 0,0,0,10,0,0,0,0;
     0,0,0,0,10,0,0,0; 0,0,0,0,0,10000,0,0; 0,0,0,0,0,0,10000,0;
     0,0,0,0,0,0,0,10000]

/-- Process noise `kf.Q`: the filterpy default `eye(8)` after
`Q[-1,-1] *= 0.5` and `Q[5:,5:] *= 0.5` (sort.py lines 64-65), i.e.
`diag(1, 1, 1, 1, 1, 1/2, 1/2, 1/4)`. -/
def Qmat : Matrix (Fin 8) (Fin 8) ℝ :=
  !![1,0,0,0,0,0,0,0; 0,1,0,0,0,0,0,0; 0,0,1,0,0,0,0,0; 0,0,0,1,0,0,0,0;
     0,0,0,0,1,0,0,0; 0,0,0,0,0,1/2,0,0; 0,0,0,0,0,0,1/2,0; 0,0,0,0,0,0,0,1/4]

/-- The per-track state of `KalmanBoxTracker` (sort.py lines 50-116).  The
filter matrices F, H, Q, R are fixed at construction and never mutated, so
they live as the constants above; the mutable filter state is `(kf_x, kf_P)`.
The class-level counter `KalmanBoxTracker.count` is threaded explicitly
through `SortTracker` below. -/
structure KalmanBoxTracker where
  kf_x : Fin 8 → ℝ
  kf_P : Matrix (Fin 8) (Fin 8) ℝ
  time_since_update : ℕ
  id : ℕ
  history : List (Fin 5 → ℝ)
  hits : ℕ
  hit_streak : ℕ
  age : ℕ
  centroidarr : List (ℝ × ℝ)
  detclass : ℝ
  bbox_history : List (Det ℝ)

/-- `KalmanBoxTracker.__init__` (sort.py lines 53-80) on a detection row,
taking the identity from the threaded counter.  filterpy starts `kf.x` at
zero before `kf.x[:5] = convert_bbox_to_z(bbox)`, so velocities begin at 0.
(The caller appends a trailing 0 to the row with `np.hstack`; that cell is at
index 6 and is never read, the class being taken from index 5.)  The
centroid uses Python float floor division `//`. -/
def KalmanBoxTracker.mk0 (bbox : Det ℝ) (count : ℕ) : KalmanBoxTracker where
  kf_x := fun i => if h : (i : ℕ) < 5 then convert_bbox_to_z bbox ⟨i, h⟩ else 0
  kf_P := Pmat0
  time_since_update := 0
  id := count
  history := []
  hits := 0
  hit_streak := 0
  age := 0
  centroidarr := [(((⌊(bbox 0 + bbox 2) / 2⌋ : ℤ) : ℝ), ((⌊(bbox 1 + bbox 3) / 2⌋ : ℤ) : ℝ))]
  detclass := bbox 5
  bbox_history := [bbox]

/-- `KalmanBoxTracker.update` (sort.py lines 82-94).  The measurement update
`kf.update(z)` is modelled from the spec (filterpy is an external library):
the standard Kalman correction `y = z - Hx`, `S = HPHᵀ + R`, `K = PHᵀS⁻¹`,
`x += Ky`, `P = (I - KH)P(I - KH)ᵀ + KRKᵀ`. -/
def KalmanBoxTracker.update (t : KalmanBoxTracker) (bbox : Det ℝ) :
    KalmanBoxTracker :=
  let z := convert_bbox_to_z bbox
  let y := z - Hmat.mulVec t.kf_x
  let S := Hmat * t.kf_P * Hmat.transpose + Rmat
  let K := t.kf_P * Hmat.transpose * S⁻¹
  let IKH := (1 : Matrix (Fin 8) (Fin 8) ℝ) - K * Hmat
  { t with
    time_since_update := 0
    history := []
    hits := t.hits + 1
    hit_streak := t.hit_streak + 1
    kf_x := t.kf_x + K.mulVec y
    kf_P := IKH * t.kf_P * IKH.transpose + K * Rmat * K.transpose
    detclass := bbox 5
    centroidarr := t.centroidarr
      ++ [(((⌊(bbox 0 + bbox 2) / 2⌋ : ℤ) : ℝ), ((⌊(bbox 1 + bbox 3) / 2⌋ : ℤ) : ℝ))]
    bbox_history := t.bbox_history ++ [bbox] }

/-- `KalmanBoxTracker.predict` (sort.py lines 96-106).  If the predicted area
would be non-positive (`x[7] + x[2] <= 0`), the area velocity is multiplied
by 0 first.  The state propagation `kf.predict()` is modelled from the spec:
`x' = Fx`, `P' = FPFᵀ + Q`.  Returns the predicted box (the last history
entry) together with the mutated tracker. -/
def KalmanBoxTracker.predict (t : KalmanBoxTracker) :
    (Fin 5 → ℝ) × KalmanBoxTracker :=
  let x0 := if t.kf_x 7 + t.kf_x 2 ≤ 0 then
      Function.update t.kf_x 7 (t.kf_x 7 * 0) else t.kf_x
  let x1 := Fmat.mulVec x0
  let P1 := Fmat * t.kf_P * Fmat.transpose + Qmat
  let box := convert_x_to_bbox fun i => x1 (Fin.castLE (by omega) i)
  (box,
    { t with
      kf_x := x1
      kf_P := P1
      age := t.age + 1
      hit_streak := if 0 < t.time_since_update then 0 else t.hit_streak
      time_since_update := t.time_since_update + 1
      history := t.history ++ [box] })

/-- `KalmanBoxTracker.get_state` (sort.py lines 109-116): the row
`[x1, y1, x2, y2, conf, detclass, vx, vy, vs]` of width 9. -/
def KalmanBoxTracker.get_state (t : KalmanBoxTracker) : List ℝ :=
  (List.ofFn (convert_x_to_bbox fun i => t.kf_x (Fin.castLE (by omega) i)))
    ++ [t.detclass, t.kf_x 5, t.kf_x 6, t.kf_x 7]

/-- The emitted record of one confirmed track:
`np.concatenate((d, [trk.id]))` of sort.py line 207, of width 10. -/
def KalmanBoxTracker.record (t : KalmanBoxTracker) : List ℝ :=
  t.get_state ++ [(t.id : ℝ)]

/-- The state of the `Sort` class (sort.py lines 163-171; `Sort` is reserved
in Lean).  `count` threads the process-wide class counter
`KalmanBoxTracker.count`, restricted to this tracker instance (the spec's
identity allocator). -/
structure SortTracker where
  max_age : ℕ
  min_hits : ℕ
  iou_threshold : ℝ
  trackers : List KalmanBoxTracker
  frame_count : ℕ
  count : ℕ

/-- The external assignment solver (scipy) as a parameter. -/
def Solver : Type :=
  (n m : ℕ) → Matrix (Fin n) (Fin m) ℝ → List (Fin n × Fin m)

/-- Over the exact reals the model produces no IEEE NaN values, so the test
`np.any(np.isnan(pos))` of sort.py line 185 is constantly false here.  The
behavior of lines 179-189 on genuine NaN/inf data is analyzed separately on
the `RVal` model below. -/
def isnanR (_ : ℝ) : Bool := false

/-- Likewise, every real value counts as finite for
`np.ma.compress_rows(np.ma.masked_invalid(trks))` of sort.py line 187. -/
def isfiniteR (_ : ℝ) : Bool := true

/-- Lines 179-189 of `Sort.update`: predict every live tracker (mutating it),
record the predicted rows `[x1, y1, x2, y2, conf, 0]`, collect the indices
whose predicted box contains a NaN in `to_del`, drop rows with non-finite
entries from `trks`, and pop the `to_del` indices (taken in reverse, so each
pop removes the intended original position) from the live list.  Returns the
surviving tracker list and the compressed rows. -/
def SortTracker.predictPhase (ts : List KalmanBoxTracker) :
    List KalmanBoxTracker × List (Det ℝ) :=
  let predicted := ts.map fun t => t.predict
  let trksAll : List (Det ℝ) :=
    predicted.map fun p => ![p.1 0, p.1 1, p.1 2, p.1 3, p.1 4, 0]
  let to_del : List ℕ :=
    (predicted.enum.filter fun e =>
      (List.finRange 5).any fun k => isnanR (e.2.1 k)).map Prod.fst
  let trks := trksAll.filter fun row => (List.finRange 6).all fun k => isfiniteR (row k)
  let survivors :=
    ((predicted.map Prod.snd).enum.filter fun e => decide (e.1 ∉ to_del)).map Prod.snd
  (survivors, trks)

/-- Lines 190-199 of `Sort.update`: run the association on the predicted
rows, apply the measurement update to each matched tracker (`m[1]` indexes
the compressed rows, which coincide with positions in the live list when no
row was dropped), and append a freshly created tracker for every unmatched
detection, drawing consecutive identities from the threaded counter.
Returns the live list at line 201 and the new counter. -/
def SortTracker.liveAfterCreate (solver : Solver) (S : SortTracker)
    {n : ℕ} (dets : Fin n → Det ℝ) : List KalmanBoxTracker × ℕ :=
  let pp := SortTracker.predictPhase S.trackers
  let trks := pp.2
  let assoc := associate_detections_to_trackers solver dets
    (fun j : Fin trks.length => trks.get j) S.iou_threshold
  let trackers2 := assoc.matches'.foldl
    (fun ts (p : Fin n × Fin trks.length) =>
      ts.modify (fun t => t.update (dets p.1)) (p.2 : ℕ)) pp.1
  assoc.unmatched_detections.foldl
    (fun (acc : List KalmanBoxTracker × ℕ) i =>
      (acc.1 ++ [KalmanBoxTracker.mk0 (dets i) acc.2], acc.2 + 1))
    (trackers2, S.count)

/-- Lines 201-212 of `Sort.update`: the reversed emission/eviction loop.
Iterating `reversed(self.trackers)` while popping only the current index
visits every element exactly once; `ret` collects the records of gated
tracks in traversal (reverse-creation) order, and the survivors are rebuilt
in original order by prepending. -/
def emissionLoop (max_age min_hits : ℕ) (ts : List KalmanBoxTracker) :
    List (List ℝ) × List KalmanBoxTracker :=
  ts.reverse.foldl
    (fun (acc : List (List ℝ) × List KalmanBoxTracker) trk =>
      ((if trk.time_since_update < max_age ∧ min_hits ≤ trk.hits then
          acc.1 ++ [trk.record]
        else acc.1),
       (if max_age < trk.time_since_update then acc.2 else trk :: acc.2)))
    ([], [])

/-- Lines 213-215 of `Sort.update`: the returned array as (column count,
rows).  `np.concatenate(ret)` stacks rows whose common width is that of the
first row; the empty return `np.empty((0, 6))` declares width 6 with no
rows. -/
def packageRet (ret : List (List ℝ)) : ℕ × List (List ℝ) :=
  match ret with
  | [] => (6, [])
  | r :: rs => (r.length, r :: rs)

/-- `Sort.update` (sort.py lines 176-215), parameterized by the external
assignment solver. -/
def SortTracker.update (solver : Solver) (S : SortTracker)
    {n : ℕ} (dets : Fin n → Det ℝ) : SortTracker × ℕ × List (List ℝ) :=
  let lc := SortTracker.liveAfterCreate solver S dets
  let em := emissionLoop S.max_age S.min_hits lc.1
  ({ S with
      trackers := em.2
      frame_count := S.frame_count + 1
      count := lc.2 },
    packageRet em.1)

end Kalman

section Lifecycle

/-- Unfolded form of the emission/eviction fold, for any starting
accumulator. -/
lemma emissionLoop_foldl (max_age min_hits : ℕ) :
    ∀ (l : List KalmanBoxTracker) (r : List (List ℝ)) (k : List KalmanBoxTracker),
      l.foldl
        (fun (acc : List (List ℝ) × List KalmanBoxTracker) trk =>
          ((if trk.time_since_update < max_age ∧ min_hits ≤ trk.hits then
              acc.1 ++ [trk.record]
            else acc.1),
           (if max_age < trk.time_since_update then acc.2 else trk :: acc.2)))
        (r, k)
      = (r ++ (l.filter fun t =>
            decide (t.time_since_update < max_age ∧ min_hits ≤ t.hits)).map
              KalmanBoxTracker.record,
         ((l.filter fun t => decide (¬ max_age < t.time_since_update)).reverse) ++ k)
  | [], r, k => by simp
  | t :: l, r, k => by
    rw [List.foldl_cons, emissionLoop_foldl max_age min_hits l _ _]
    by_cases h2 : max_age < t.time_since_update
    · have h3 : ¬ t.time_since_update ≤ max_age := not_le.mpr h2
      by_cases h1 : t.time_since_update < max_age ∧ min_hits ≤ t.hits <;>
        simp [h1, h2, h3, List.filter_cons]
    · have h3 : t.time_since_update ≤ max_age := Nat.le_of_not_lt h2
      by_cases h1 : t.time_since_update < max_age ∧ min_hits ≤ t.hits <;>
        simp [h1, h2, h3, List.filter_cons]

/-- The emission/eviction loop emits exactly the records of the gated tracks
(in reverse order) and keeps exactly the tracks within the age bound. -/
lemma emissionLoop_eq (max_age min_hits : ℕ) (ts : List KalmanBoxTracker) :
    emissionLoop max_age min_hits ts
      = ((((ts.filter fun t =>
              decide (t.time_since_update < max_age ∧ min_hits ≤ t.hits)).reverse).map
            KalmanBoxTracker.record),
         ts.filter fun t => decide (¬ max_age < t.time_since_update)) := by
  unfold emissionLoop
  rw [emissionLoop_foldl]
  simp [List.filter_reverse, List.map_reverse]

lemma packageRet_snd (ret : List (List ℝ)) : (packageRet ret).2 = ret := by
  cases ret <;> rfl

lemma update_rows_eq (solver : Solver) (S : SortTracker) {n : ℕ}
    (dets : Fin n → Det ℝ) :
    (SortTracker.update solver S dets).2.2
      = ((((SortTracker.liveAfterCreate solver S dets).1.filter fun t =>
            decide (t.time_since_update < S.max_age ∧ S.min_hits ≤ t.hits)).reverse).map
          KalmanBoxTracker.record) := by
  simp only [SortTracker.update]
  rw [packageRet_snd, emissionLoop_eq]

lemma update_trackers_eq (solver : Solver) (S : SortTracker) {n : ℕ}
    (dets : Fin n → Det ℝ) :
    (SortTracker.update solver S dets).1.trackers
      = ((SortTracker.liveAfterCreate solver S dets).1.filter fun t =>
          decide (¬ S.max_age < t.time_since_update)) := by
  simp only [SortTracker.update]
  rw [emissionLoop_eq]

lemma get_state_length (t : KalmanBoxTracker) : t.get_state.length = 9 := by
  unfold KalmanBoxTracker.get_state
  simp

lemma record_length (t : KalmanBoxTracker) : t.record.length = 10 := by
  unfold KalmanBoxTracker.record
  simp [get_state_length]

/-- Two tracks with equal emitted records carry the same identity. -/
lemma record_id_eq {t u : KalmanBoxTracker} (h : t.record = u.record) : t.id = u.id := by
  unfold KalmanBoxTracker.record at h
  have h2 := (List.append_inj h (by rw [get_state_length, get_state_length])).2
  have h3 : ((t.id : ℝ)) = ((u.id : ℝ)) := by
    injection h2 with h3 _
  exact_mod_cast h3

/-- C1: at the emission pass, a live track's record is included in the step's
output if and only if `time_since_update < max_age` and `hits ≥ min_hits`
(stated both as an exact description of the output and survivor lists, and as
a membership equivalence for states whose live tracks carry distinct
identities); a track passing the age gate but failing the hits gate is
retained in the live set but not emitted. -/
theorem C1_emission_gate (solver : Solver) (S : SortTracker) {n : ℕ}
    (dets : Fin n → Det ℝ) :
    ((SortTracker.update solver S dets).2.2
        = ((((SortTracker.liveAfterCreate solver S dets).1.filter fun t =>
              decide (t.time_since_update < S.max_age ∧ S.min_hits ≤ t.hits)).reverse).map
            KalmanBoxTracker.record)
      ∧ (SortTracker.update solver S dets).1.trackers
          = ((SortTracker.liveAfterCreate solver S dets).1.filter fun t =>
              decide (¬ S.max_age < t.time_since_update)))
    ∧ ((((SortTracker.liveAfterCreate solver S dets).1.map KalmanBoxTracker.id).Nodup →
        ∀ t ∈ (SortTracker.liveAfterCreate solver S dets).1,
          (t.record ∈ (SortTracker.update solver S dets).2.2
              ↔ (t.time_since_update < S.max_age ∧ S.min_hits ≤ t.hits))
          ∧ ((t.time_since_update < S.max_age ∧ t.hits < S.min_hits) →
              t ∈ (SortTracker.update solver S dets).1.trackers
                ∧ t.record ∉ (SortTracker.update solver S dets).2.2))) := by
  refine ⟨⟨update_rows_eq solver S dets, update_trackers_eq solver S dets⟩, ?_⟩
  intro hnodup t ht
  have hiff : t.record ∈ (SortTracker.update solver S dets).2.2
      ↔ (t.time_since_update < S.max_age ∧ S.min_hits ≤ t.hits) := by
    rw [update_rows_eq]
    constructor
    · intro hmem
      obtain ⟨u, hu, hrec⟩ := List.mem_map.mp hmem
      rw [List.mem_reverse] at hu
      obtain ⟨huL, hgate⟩ := List.mem_filter.mp hu
      have : u = t :=
        List.inj_on_of_nodup_map hnodup huL ht (record_id_eq hrec)
      subst this
      simpa using hgate
    · intro hgate
      refine List.mem_map.mpr ⟨t, ?_, rfl⟩
      rw [List.mem_reverse]
      exact List.mem_filter.mpr ⟨ht, by simpa using hgate⟩
  refine ⟨hiff, fun hfail => ⟨?_, ?_⟩⟩
  · rw [update_trackers_eq]
    refine List.mem_filter.mpr ⟨ht, ?_⟩
    simp only [decide_eq_true_eq]
    omega
  · rw [hiff]
    omega

/-- C2 (amended): a track in the live set at the emission pass survives the
step if and only if its `time_since_update` at that point — after the step's
prediction and any same-step match update — is at most `max_age`; it is
evicted exactly when that value exceeds `max_age`.  (The claim's original
timing, pegging the test to the value right after prediction, is refuted by
`C2_counterexample`: a track whose post-prediction count exceeds `max_age`
but which is then matched has the count reset to 0 and is kept.) -/
theorem C2_eviction_amended (solver : Solver) (S : SortTracker) {n : ℕ}
    (dets : Fin n → Det ℝ) (t : KalmanBoxTracker)
    (ht : t ∈ (SortTracker.liveAfterCreate solver S dets).1) :
    (t ∈ (SortTracker.update solver S dets).1.trackers
      ↔ t.time_since_update ≤ S.max_age)
    ∧ (t ∉ (SortTracker.update solver S dets).1.trackers
      ↔ S.max_age < t.time_since_update) := by
  have hmem : t ∈ (SortTracker.update solver S dets).1.trackers
      ↔ t.time_since_update ≤ S.max_age := by
    rw [update_trackers_eq]
    rw [List.mem_filter]
    constructor
    · rintro ⟨-, hk⟩
      simp only [decide_eq_true_eq] at hk
      omega
    · intro hk
      exact ⟨ht, by simp only [decide_eq_true_eq]; omega⟩
  exact ⟨hmem, by rw [hmem]; exact not_le⟩

/-- C10: when at least one live track passes the emission gate every returned
row has width 10 (9 state fields plus the identity) and the declared column
count is 10, but when no track passes the gate the update returns the empty
array `np.empty((0, 6))` of width 6 — the output width differs between the
two cases. -/
theorem C10_output_width (solver : Solver) (S : SortTracker) {n : ℕ}
    (dets : Fin n → Det ℝ) :
    ((∃ t ∈ (SortTracker.liveAfterCreate solver S dets).1,
        t.time_since_update < S.max_age ∧ S.min_hits ≤ t.hits) →
      (SortTracker.update solver S dets).2.1 = 10
        ∧ (SortTracker.update solver S dets).2.2 ≠ []
        ∧ ∀ r ∈ (SortTracker.update solver S dets).2.2, r.length = 10)
    ∧ ((∀ t ∈ (SortTracker.liveAfterCreate solver S dets).1,
        ¬ (t.time_since_update < S.max_age ∧ S.min_hits ≤ t.hits)) →
      (SortTracker.update solver S dets).2 = (6, [])) := by
  have hrows := update_rows_eq solver S dets
  have hupd : (SortTracker.update solver S dets).2
      = packageRet ((((SortTracker.liveAfterCreate solver S dets).1.filter fun t =>
            decide (t.time_since_update < S.max_age ∧ S.min_hits ≤ t.hits)).reverse).map
          KalmanBoxTracker.record) := by
    simp only [SortTracker.update]
    rw [emissionLoop_eq]
  constructor
  · intro ⟨t, ht, hgate⟩
    have htf : t ∈ ((SortTracker.liveAfterCreate solver S dets).1.filter fun t =>
        decide (t.time_since_update < S.max_age ∧ S.min_hits ≤ t.hits)) :=
      List.mem_filter.mpr ⟨ht, by simpa using hgate⟩
    have hne : ((((SortTracker.liveAfterCreate solver S dets).1.filter fun t =>
        decide (t.time_since_update < S.max_age ∧ S.min_hits ≤ t.hits)).reverse).map
          KalmanBoxTracker.record) ≠ [] := by
      simp only [ne_eq, List.map_eq_nil_iff, List.reverse_eq_nil_iff]
      intro hcon
      rw [hcon] at htf
      exact absurd htf (List.not_mem_nil t)
    refine ⟨?_, ?_, ?_⟩
    · rw [show (SortTracker.update solver S dets).2.1
          = (packageRet _).1 from congrArg Prod.fst hupd]
      rcases hl : ((((SortTracker.liveAfterCreate solver S dets).1.filter fun t =>
          decide (t.time_since_update < S.max_age ∧ S.min_hits ≤ t.hits)).reverse).map
            KalmanBoxTracker.record) with - | ⟨r, rs⟩
      · exact absurd hl hne
      · have hr : r ∈ ((((SortTracker.liveAfterCreate solver S dets).1.filter fun t =>
            decide (t.time_since_update < S.max_age ∧ S.min_hits ≤ t.hits)).reverse).map
              KalmanBoxTracker.record) := by
          rw [hl]; exact List.mem_cons_self r rs
        obtain ⟨u, -, hu⟩ := List.mem_map.mp hr
        rw [hl]
        simpa [packageRet, ← hu] using record_length u
    · rw [hrows]; exact hne
    · intro r hr
      rw [hrows] at hr
      obtain ⟨u, -, hu⟩ := List.mem_map.mp hr
      rw [← hu]
      exact record_length u
  · intro hnone
    have hnil : ((SortTracker.liveAfterCreate solver S dets).1.filter fun t =>
        decide (t.time_since_update < S.max_age ∧ S.min_hits ≤ t.hits)) = [] := by
      rw [List.filter_eq_nil_iff]
      intro t ht
      simpa using hnone t ht
    rw [hupd, hnil]
    rfl

end Lifecycle

section Identity

lemma predict_id (t : KalmanBoxTracker) : (t.predict).2.id = t.id := rfl

lemma kupdate_id (t : KalmanBoxTracker) (bbox : Det ℝ) :
    (t.update bbox).id = t.id := rfl

lemma mk0_id (bbox : Det ℝ) (c : ℕ) : (KalmanBoxTracker.mk0 bbox c).id = c := rfl

/-- Over ℝ nothing is NaN, so no tracker is popped: the prediction phase
keeps every (predicted) tracker. -/
lemma predictPhase_fst (ts : List KalmanBoxTracker) :
    (SortTracker.predictPhase ts).1 = ts.map fun t => (t.predict).2 := by
  unfold SortTracker.predictPhase
  simp [isnanR, List.enum_map_snd]

/-- Mapping a projection unchanged by the modification commutes with
`List.modify`. -/
lemma map_modify {β : Type} (g : KalmanBoxTracker → β)
    (f : KalmanBoxTracker → KalmanBoxTracker) (hf : ∀ a, g (f a) = g a) :
    ∀ (i : ℕ) (l : List KalmanBoxTracker), (l.modify f i).map g = l.map g
  | _, [] => by rw [List.modify_nil]
  | 0, x :: l => by
    simp only [List.modify, List.modifyTailIdx, List.modifyHead_cons, List.map_cons, hf]
  | i + 1, x :: l => by
    have ih := map_modify g f hf i l
    simp only [List.modify, List.modifyTailIdx, List.map_cons] at ih ⊢
    rw [ih]

/-- The matched-update fold (lines 193-194) never touches identities. -/
lemma matched_fold_map_id {n m : ℕ} (dets : Fin n → Det ℝ) :
    ∀ (ms : List (Fin n × Fin m)) (ts : List KalmanBoxTracker),
      ((ms.foldl (fun ts p =>
          ts.modify (fun t => t.update (dets p.1)) (p.2 : ℕ)) ts).map
        KalmanBoxTracker.id) = ts.map KalmanBoxTracker.id
  | [], ts => rfl
  | p :: ms, ts => by
    rw [List.foldl_cons, matched_fold_map_id dets ms _,
      map_modify KalmanBoxTracker.id _ (fun a => kupdate_id a (dets p.1))]

/-- The creation fold (lines 197-199) appends trackers carrying the
consecutive identities drawn from the threaded counter. -/
lemma create_fold_spec {n : ℕ} (dets : Fin n → Det ℝ) :
    ∀ (uds : List (Fin n)) (ts : List KalmanBoxTracker) (c : ℕ),
      (uds.foldl (fun (acc : List KalmanBoxTracker × ℕ) i =>
          (acc.1 ++ [KalmanBoxTracker.mk0 (dets i) acc.2], acc.2 + 1)) (ts, c)).2
          = c + uds.length
      ∧ ((uds.foldl (fun (acc : List KalmanBoxTracker × ℕ) i =>
          (acc.1 ++ [KalmanBoxTracker.mk0 (dets i) acc.2], acc.2 + 1)) (ts, c)).1.map
            KalmanBoxTracker.id)
          = ts.map KalmanBoxTracker.id ++ List.range' c uds.length
  | [], ts, c => by simp
  | i :: uds, ts, c => by
    have ih := create_fold_spec dets uds (ts ++ [KalmanBoxTracker.mk0 (dets i) c]) (c + 1)
    constructor
    · rw [List.foldl_cons]
      rw [ih.1]
      simp only [List.length_cons]
      omega
    · rw [List.foldl_cons, ih.2]
      simp [mk0_id, List.range'_succ]

/-- The identities in the live list after association and creation are the old
identities (in order) followed by the freshly allocated block. -/
lemma liveAfterCreate_map_id (solver : Solver) (S : SortTracker) {n : ℕ}
    (dets : Fin n → Det ℝ) :
    ∃ k, (SortTracker.liveAfterCreate solver S dets).2 = S.count + k
      ∧ ((SortTracker.liveAfterCreate solver S dets).1.map KalmanBoxTracker.id)
        = S.trackers.map KalmanBoxTracker.id ++ List.range' S.count k := by
  unfold SortTracker.liveAfterCreate
  simp only []
  set trks := (SortTracker.predictPhase S.trackers).2
  set assoc := associate_detections_to_trackers solver dets
    (fun j : Fin trks.length => trks.get j) S.iou_threshold
  refine ⟨assoc.unmatched_detections.length, ?_, ?_⟩
  · exact (create_fold_spec dets assoc.unmatched_detections _ S.count).1
  · rw [(create_fold_spec dets assoc.unmatched_detections _ S.count).2,
      matched_fold_map_id dets assoc.matches' _, predictPhase_fst]
    rw [List.map_map]
    rfl

/-- C6: within one tracker instance, assuming every live identity is below the
threaded counter (true initially and preserved), one update step allocates a
block of consecutive fresh identities `count, count+1, …` to the created
tracks (strictly increasing in creation order, each at least `count`, hence
distinct from every identity ever assigned before), leaves the identities of
surviving tracks unchanged and in order, preserves distinctness of live
identities, and re-establishes the counter bound. -/
theorem C6_identity_allocator (solver : Solver) (S : SortTracker) {n : ℕ}
    (dets : Fin n → Det ℝ)
    (hlt : ∀ t ∈ S.trackers, t.id < S.count) :
    ∃ k, (SortTracker.update solver S dets).1.count = S.count + k
      ∧ ((SortTracker.liveAfterCreate solver S dets).1.map KalmanBoxTracker.id)
        = S.trackers.map KalmanBoxTracker.id ++ List.range' S.count k
      ∧ (List.range' S.count k).Pairwise (· < ·)
      ∧ (∀ i ∈ List.range' S.count k, S.count ≤ i)
      ∧ (((SortTracker.update solver S dets).1.trackers.map KalmanBoxTracker.id).Sublist
          (S.trackers.map KalmanBoxTracker.id ++ List.range' S.count k))
      ∧ (∀ t ∈ (SortTracker.update solver S dets).1.trackers,
          t.id < (SortTracker.update solver S dets).1.count)
      ∧ ((S.trackers.map KalmanBoxTracker.id).Nodup →
          ((SortTracker.liveAfterCreate solver S dets).1.map KalmanBoxTracker.id).Nodup) := by
  obtain ⟨k, hc, hids⟩ := liveAfterCreate_map_id solver S dets
  have hcount : (SortTracker.update solver S dets).1.count
      = (SortTracker.liveAfterCreate solver S dets).2 := rfl
  refine ⟨k, by rw [hcount, hc], hids, List.pairwise_lt_range' _ _,
    fun i hi => (List.mem_range'_1.mp hi).1, ?_, ?_, ?_⟩
  · rw [update_trackers_eq]
    exact (List.Sublist.map KalmanBoxTracker.id (List.filter_sublist _)).trans
      (hids ▸ List.Sublist.refl _)
  · intro t ht
    rw [hcount, hc]
    rw [update_trackers_eq] at ht
    have htL : t ∈ (SortTracker.liveAfterCreate solver S dets).1 :=
      List.mem_filter.mp ht |>.1
    have : t.id ∈ ((SortTracker.liveAfterCreate solver S dets).1.map KalmanBoxTracker.id) :=
      List.mem_map.mpr ⟨t, htL, rfl⟩
    rw [hids] at this
    rcases List.mem_append.mp this with hold | hnew
    · obtain ⟨u, hu, hui⟩ := List.mem_map.mp hold
      have := hlt u hu
      omega
    · have := (List.mem_range'_1.mp hnew).2
      omega
  · intro hnd
    rw [hids]
    refine List.Nodup.append hnd (List.nodup_range' _ _) ?_
    intro a ha hb
    obtain ⟨u, hu, hui⟩ := List.mem_map.mp ha
    have h1 := hlt u hu
    have h2 := (List.mem_range'_1.mp hb).1
    omega

end Identity

/-- C8: for a well-formed box (positive width and height), converting to the
center/area/aspect measurement form and back reproduces the original corner
box and confidence exactly over the reals. -/
theorem C8_roundtrip (bbox : Det ℝ) (hw : bbox 0 < bbox 2) (hh : bbox 1 < bbox 3) :
    convert_x_to_bbox (convert_bbox_to_z bbox)
      = ![bbox 0, bbox 1, bbox 2, bbox 3, bbox 4] := by
  have hw' : (0:ℝ) < bbox 2 - bbox 0 := by linarith
  have hh' : (0:ℝ) < bbox 3 - bbox 1 := by linarith
  have hs : ((bbox 2 - bbox 0) * (bbox 3 - bbox 1)) * ((bbox 2 - bbox 0) / (bbox 3 - bbox 1))
      = (bbox 2 - bbox 0) ^ 2 := by
    field_simp
    ring
  have hsqrt : Real.sqrt (((bbox 2 - bbox 0) * (bbox 3 - bbox 1))
      * ((bbox 2 - bbox 0) / (bbox 3 - bbox 1))) = bbox 2 - bbox 0 := by
    rw [hs, Real.sqrt_sq hw'.le]
  have hdiv : ((bbox 2 - bbox 0) * (bbox 3 - bbox 1)) / (bbox 2 - bbox 0)
      = bbox 3 - bbox 1 := by
    field_simp
  funext i
  fin_cases i <;>
    simp only [convert_x_to_bbox, convert_bbox_to_z] <;>
    simp [hsqrt, hdiv] <;>
    ring_nf

/-- Box used in several executable witnesses. -/
noncomputable def rbox : Det ℝ := ![0, 0, 10, 10, 9 / 10, 0]

/-- Witness for C8 at the concrete box `(0, 0, 10, 10)`. -/
theorem C8_roundtrip_witness :
    (rbox 0 < rbox 2 ∧ rbox 1 < rbox 3)
    ∧ convert_x_to_bbox (convert_bbox_to_z rbox)
      = ![rbox 0, rbox 1, rbox 2, rbox 3, rbox 4] :=
  ⟨⟨by norm_num [rbox], by norm_num [rbox]⟩,
    C8_roundtrip rbox (by norm_num [rbox]) (by norm_num [rbox])⟩

/-- C9: `predict()` first multiplies the area velocity by zero when the
current area plus area velocity is non-positive, then propagates the state
with the transition matrix F, increments `age`, resets `hit_streak` to 0
exactly when `time_since_update > 0`, increments `time_since_update`, sets
the covariance to `FPFᵀ + Q`, appends the predicted box to `history`, and
returns that box. -/
theorem C9_predict_behavior (t : KalmanBoxTracker) :
    (t.predict).2.kf_x
        = Fmat.mulVec (if t.kf_x 7 + t.kf_x 2 ≤ 0 then
            Function.update t.kf_x 7 (t.kf_x 7 * 0) else t.kf_x)
      ∧ (t.kf_x 7 + t.kf_x 2 ≤ 0 →
          (if t.kf_x 7 + t.kf_x 2 ≤ 0 then
            Function.update t.kf_x 7 (t.kf_x 7 * 0) else t.kf_x) 7 = 0)
      ∧ (t.predict).2.kf_P = Fmat * t.kf_P * Fmat.transpose + Qmat
      ∧ (t.predict).2.age = t.age + 1
      ∧ (t.predict).2.hit_streak
          = (if 0 < t.time_since_update then 0 else t.hit_streak)
      ∧ (0 < t.time_since_update → (t.predict).2.hit_streak = 0)
      ∧ (t.predict).2.time_since_update = t.time_since_update + 1
      ∧ (t.predict).2.history = t.history ++ [(t.predict).1]
      ∧ (t.predict).1
          = convert_x_to_bbox (fun i => (t.predict).2.kf_x (Fin.castLE (by omega) i)) := by
  refine ⟨rfl, ?_, rfl, rfl, rfl, ?_, rfl, rfl, rfl⟩
  · intro h
    rw [if_pos h, Function.update_same, mul_zero]
  · intro h
    show (if 0 < t.time_since_update then 0 else t.hit_streak) = 0
    rw [if_pos h]

/-- Witness for C9 at a freshly created tracker. -/
theorem C9_predict_behavior_witness :
    ((KalmanBoxTracker.mk0 rbox 0).predict).2.kf_x
        = Fmat.mulVec (if (KalmanBoxTracker.mk0 rbox 0).kf_x 7
              + (KalmanBoxTracker.mk0 rbox 0).kf_x 2 ≤ 0 then
            Function.update (KalmanBoxTracker.mk0 rbox 0).kf_x 7
              ((KalmanBoxTracker.mk0 rbox 0).kf_x 7 * 0)
          else (KalmanBoxTracker.mk0 rbox 0).kf_x)
      ∧ ((KalmanBoxTracker.mk0 rbox 0).kf_x 7 + (KalmanBoxTracker.mk0 rbox 0).kf_x 2 ≤ 0 →
          (if (KalmanBoxTracker.mk0 rbox 0).kf_x 7
              + (KalmanBoxTracker.mk0 rbox 0).kf_x 2 ≤ 0 then
            Function.update (KalmanBoxTracker.mk0 rbox 0).kf_x 7
              ((KalmanBoxTracker.mk0 rbox 0).kf_x 7 * 0)
          else (KalmanBoxTracker.mk0 rbox 0).kf_x) 7 = 0)
      ∧ ((KalmanBoxTracker.mk0 rbox 0).predict).2.kf_P
          = Fmat * (KalmanBoxTracker.mk0 rbox 0).kf_P * Fmat.transpose + Qmat
      ∧ ((KalmanBoxTracker.mk0 rbox 0).predict).2.age
          = (KalmanBoxTracker.mk0 rbox 0).age + 1
      ∧ ((KalmanBoxTracker.mk0 rbox 0).predict).2.hit_streak
          = (if 0 < (KalmanBoxTracker.mk0 rbox 0).time_since_update then 0
             else (KalmanBoxTracker.mk0 rbox 0).hit_streak)
      ∧ (0 < (KalmanBoxTracker.mk0 rbox 0).time_since_update →
          ((KalmanBoxTracker.mk0 rbox 0).predict).2.hit_streak = 0)
      ∧ ((KalmanBoxTracker.mk0 rbox 0).predict).2.time_since_update
          = (KalmanBoxTracker.mk0 rbox 0).time_since_update + 1
      ∧ ((KalmanBoxTracker.mk0 rbox 0).predict).2.history
          = (KalmanBoxTracker.mk0 rbox 0).history ++ [((KalmanBoxTracker.mk0 rbox 0).predict).1]
      ∧ ((KalmanBoxTracker.mk0 rbox 0).predict).1
          = convert_x_to_bbox (fun i =>
              ((KalmanBoxTracker.mk0 rbox 0).predict).2.kf_x (Fin.castLE (by omega) i)) :=
  C9_predict_behavior (KalmanBoxTracker.mk0 rbox 0)

section ConcreteRuns

/-- A dummy assignment solver for concrete runs; the runs below only exercise
paths on which the solver is never consulted. -/
def trivSolver : Solver := fun _ _ _ => []

/-- A fresh tracker instance with the default configuration
`max_age = 1, min_hits = 3, iou_threshold = 0.3`. -/
noncomputable def S0 : SortTracker :=
  { max_age := 1, min_hits := 3, iou_threshold := 3 / 10, trackers := [],
    frame_count := 0, count := 0 }

/-- The stationary detection `(0, 0, 10, 10, 0.9, 0)` of the spec's worked
scenario. -/
noncomputable def det0 : Det ℝ := ![0, 0, 10, 10, 9 / 10, 0]

/-- The one-detection input array. -/
noncomputable def dets1 : Fin 1 → Det ℝ := fun _ => det0

/-- One step from the empty state: the single unmatched detection creates one
tracker with identity 0 and the counter advances to 1. -/
lemma live_S0 : SortTracker.liveAfterCreate trivSolver S0 dets1
    = ([KalmanBoxTracker.mk0 det0 0], 1) := rfl

lemma live_S0_fst : (SortTracker.liveAfterCreate trivSolver S0 dets1).1
    = [KalmanBoxTracker.mk0 det0 0] := rfl

lemma mk0_mem_live : KalmanBoxTracker.mk0 det0 0
    ∈ (SortTracker.liveAfterCreate trivSolver S0 dets1).1 := by
  rw [live_S0_fst]
  exact List.mem_singleton.mpr rfl

/-- Witness for C1 at the first step from the empty state: the freshly
created track (with `hits = 0 < min_hits = 3`) is not emitted but kept. -/
theorem C1_emission_gate_witness :
    (((SortTracker.liveAfterCreate trivSolver S0 dets1).1.map KalmanBoxTracker.id).Nodup
      ∧ KalmanBoxTracker.mk0 det0 0 ∈ (SortTracker.liveAfterCreate trivSolver S0 dets1).1)
    ∧ (((KalmanBoxTracker.mk0 det0 0).record ∈ (SortTracker.update trivSolver S0 dets1).2.2
          ↔ ((KalmanBoxTracker.mk0 det0 0).time_since_update < S0.max_age
              ∧ S0.min_hits ≤ (KalmanBoxTracker.mk0 det0 0).hits))
      ∧ (((KalmanBoxTracker.mk0 det0 0).time_since_update < S0.max_age
            ∧ (KalmanBoxTracker.mk0 det0 0).hits < S0.min_hits) →
          KalmanBoxTracker.mk0 det0 0 ∈ (SortTracker.update trivSolver S0 dets1).1.trackers
            ∧ (KalmanBoxTracker.mk0 det0 0).record
                ∉ (SortTracker.update trivSolver S0 dets1).2.2)) :=
  ⟨⟨by rw [live_S0_fst]; simp [mk0_id], mk0_mem_live⟩,
    (C1_emission_gate trivSolver S0 dets1).2
      (by rw [live_S0_fst]; simp [mk0_id]) (KalmanBoxTracker.mk0 det0 0) mk0_mem_live⟩

/-- Witness for the amended C2 at the same concrete step: the new track has
`time_since_update = 0 ≤ max_age` and indeed survives. -/
theorem C2_eviction_amended_witness :
    (KalmanBoxTracker.mk0 det0 0 ∈ (SortTracker.liveAfterCreate trivSolver S0 dets1).1)
    ∧ ((KalmanBoxTracker.mk0 det0 0 ∈ (SortTracker.update trivSolver S0 dets1).1.trackers
          ↔ (KalmanBoxTracker.mk0 det0 0).time_since_update ≤ S0.max_age)
      ∧ (KalmanBoxTracker.mk0 det0 0 ∉ (SortTracker.update trivSolver S0 dets1).1.trackers
          ↔ S0.max_age < (KalmanBoxTracker.mk0 det0 0).time_since_update)) :=
  ⟨mk0_mem_live, C2_eviction_amended trivSolver S0 dets1 _ mk0_mem_live⟩

/-- Witness for C6 at the same concrete step (the counter bound holds
vacuously for the empty initial live set). -/
theorem C6_identity_allocator_witness :
    (∀ t ∈ S0.trackers, t.id < S0.count)
    ∧ (∃ k, (SortTracker.update trivSolver S0 dets1).1.count = S0.count + k
      ∧ ((SortTracker.liveAfterCreate trivSolver S0 dets1).1.map KalmanBoxTracker.id)
        = S0.trackers.map KalmanBoxTracker.id ++ List.range' S0.count k
      ∧ (List.range' S0.count k).Pairwise (· < ·)
      ∧ (∀ i ∈ List.range' S0.count k, S0.count ≤ i)
      ∧ (((SortTracker.update trivSolver S0 dets1).1.trackers.map KalmanBoxTracker.id).Sublist
          (S0.trackers.map KalmanBoxTracker.id ++ List.range' S0.count k))
      ∧ (∀ t ∈ (SortTracker.update trivSolver S0 dets1).1.trackers,
          t.id < (SortTracker.update trivSolver S0 dets1).1.count)
      ∧ ((S0.trackers.map KalmanBoxTracker.id).Nodup →
          ((SortTracker.liveAfterCreate trivSolver S0 dets1).1.map KalmanBoxTracker.id).Nodup)) :=
  ⟨by simp [S0], C6_identity_allocator trivSolver S0 dets1 (by simp [S0])⟩

/-- Witness for C10 at the same concrete step: no track passes the gate, so
the output is the width-6 empty array. -/
theorem C10_output_width_witness :
    (∀ t ∈ (SortTracker.liveAfterCreate trivSolver S0 dets1).1,
        ¬ (t.time_since_update < S0.max_age ∧ S0.min_hits ≤ t.hits))
    ∧ (SortTracker.update trivSolver S0 dets1).2 = (6, []) := by
  have hno : ∀ t ∈ (SortTracker.liveAfterCreate trivSolver S0 dets1).1,
      ¬ (t.time_since_update < S0.max_age ∧ S0.min_hits ≤ t.hits) := by
    rw [live_S0_fst]
    intro t ht
    rw [List.mem_singleton.mp ht]
    show ¬ (0 < S0.max_age ∧ S0.min_hits ≤ 0)
    simp [S0]
  exact ⟨hno, (C10_output_width trivSolver S0 dets1).2 hno⟩

/-- Evaluation of vector notation at index 5 (Mathlib stops at 4). -/
lemma cons_val_five {α : Type} {m : ℕ} (x : α) (u : Fin m.succ.succ.succ.succ.succ → α) :
    Matrix.vecCons x u 5
      = Matrix.vecHead (Matrix.vecTail (Matrix.vecTail (Matrix.vecTail (Matrix.vecTail u)))) :=
  rfl

/-- Evaluation of vector notation at index 6. -/
lemma cons_val_six {α : Type} {m : ℕ} (x : α) (u : Fin m.succ.succ.succ.succ.succ.succ → α) :
    Matrix.vecCons x u 6
      = Matrix.vecHead (Matrix.vecTail (Matrix.vecTail (Matrix.vecTail (Matrix.vecTail
          (Matrix.vecTail u))))) :=
  rfl

/-- Evaluation of vector notation at index 7. -/
lemma cons_val_seven {α : Type} {m : ℕ}
    (x : α) (u : Fin m.succ.succ.succ.succ.succ.succ.succ → α) :
    Matrix.vecCons x u 7
      = Matrix.vecHead (Matrix.vecTail (Matrix.vecTail (Matrix.vecTail (Matrix.vecTail
          (Matrix.vecTail (Matrix.vecTail u)))))) :=
  rfl

/-- The Kalman state reached by feeding `det0`: center (5,5), area 100,
aspect 1, confidence 0.9, zero velocities.  It is a fixed point of the
stationary run. -/
noncomputable def x0v : Fin 8 → ℝ := ![5, 5, 100, 1, 9 / 10, 0, 0, 0]

/-- The box decoded from `x0v`: exactly `(0, 0, 10, 10)` with confidence
0.9. -/
noncomputable def box0 : Fin 5 → ℝ := ![0, 0, 10, 10, 9 / 10]

lemma hFx0 : Fmat.mulVec x0v = x0v := by
  funext i
  fin_cases i <;>
    simp [Fmat, x0v, Matrix.mulVec, Matrix.dotProduct, Fin.sum_univ_succ,
      cons_val_five, cons_val_six, cons_val_seven]

lemma hHx0 : Hmat.mulVec x0v = ![5, 5, 100, 1, 9 / 10] := by
  funext i
  fin_cases i <;>
    simp [Hmat, x0v, Matrix.mulVec, Matrix.dotProduct, Fin.sum_univ_succ,
      cons_val_five, cons_val_six, cons_val_seven]

lemma hz0 : convert_bbox_to_z det0 = ![5, 5, 100, 1, 9 / 10] := by
  funext i
  fin_cases i
  · show (0:ℝ) + ((10:ℝ) - 0) / 2 = 5
    norm_num
  · show (0:ℝ) + ((10:ℝ) - 0) / 2 = 5
    norm_num
  · show ((10:ℝ) - 0) * ((10:ℝ) - 0) = 100
    norm_num
  · show ((10:ℝ) - 0) / ((10:ℝ) - 0) = 1
    norm_num
  · rfl

lemma hy0 : convert_bbox_to_z det0 - Hmat.mulVec x0v = 0 := by
  rw [hz0, hHx0]
  simp

lemma hclamp0 : ¬ (x0v 7 + x0v 2 ≤ 0) := by
  show ¬ ((0:ℝ) + 100 ≤ 0)
  norm_num

lemma sqrt100 : Real.sqrt ((100:ℝ) * 1) = 10 := by
  rw [show ((100:ℝ) * 1) = 10 ^ 2 by norm_num, Real.sqrt_sq (by norm_num : (0:ℝ) ≤ 10)]

lemma hbox0 : convert_x_to_bbox (fun i => x0v (Fin.castLE (by omega) i)) = box0 := by
  funext i
  fin_cases i
  · show (5:ℝ) - Real.sqrt ((100:ℝ) * 1) / 2 = 0
    rw [sqrt100]; norm_num
  · show (5:ℝ) - (100:ℝ) / Real.sqrt ((100:ℝ) * 1) / 2 = 0
    rw [sqrt100]; norm_num
  · show (5:ℝ) + Real.sqrt ((100:ℝ) * 1) / 2 = 10
    rw [sqrt100]; norm_num
  · show (5:ℝ) + (100:ℝ) / Real.sqrt ((100:ℝ) * 1) / 2 = 10
    rw [sqrt100]; norm_num
  · rfl

lemma trk0_kf_x : (KalmanBoxTracker.mk0 det0 0).kf_x = x0v := by
  funext i
  fin_cases i
  · show (0:ℝ) + ((10:ℝ) - 0) / 2 = 5
    norm_num
  · show (0:ℝ) + ((10:ℝ) - 0) / 2 = 5
    norm_num
  · show ((10:ℝ) - 0) * ((10:ℝ) - 0) = 100
    norm_num
  · show ((10:ℝ) - 0) / ((10:ℝ) - 0) = 1
    norm_num
  · rfl
  · rfl
  · rfl
  · rfl

lemma hpredict_box (t : KalmanBoxTracker) (hx : t.kf_x = x0v) : (t.predict).1 = box0 := by
  show convert_x_to_bbox (fun i =>
      (Fmat.mulVec (if t.kf_x 7 + t.kf_x 2 ≤ 0 then
        Function.update t.kf_x 7 (t.kf_x 7 * 0) else t.kf_x)) (Fin.castLE (by omega) i))
    = box0
  rw [hx, if_neg hclamp0, hFx0, hbox0]

lemma hpredict_x (t : KalmanBoxTracker) (hx : t.kf_x = x0v) :
    (t.predict).2.kf_x = x0v := by
  show Fmat.mulVec (if t.kf_x 7 + t.kf_x 2 ≤ 0 then
      Function.update t.kf_x 7 (t.kf_x 7 * 0) else t.kf_x) = x0v
  rw [hx, if_neg hclamp0, hFx0]

lemma hupdate_x (t : KalmanBoxTracker) (hx : t.kf_x = x0v) :
    (t.update det0).kf_x = x0v := by
  show t.kf_x + (t.kf_P * Hmat.transpose
      * (Hmat * t.kf_P * Hmat.transpose + Rmat)⁻¹).mulVec
        (convert_bbox_to_z det0 - Hmat.mulVec t.kf_x) = x0v
  rw [hx, hy0, Matrix.mulVec_zero, add_zero]

lemma row_box0 : (![box0 0, box0 1, box0 2, box0 3, box0 4, 0] : Det ℝ) = det0 := by
  funext i
  fin_cases i <;> rfl

lemma predictPhase_single (t : KalmanBoxTracker) (hx : t.kf_x = x0v) :
    SortTracker.predictPhase [t] = ([(t.predict).2], [det0]) := by
  unfold SortTracker.predictPhase
  simp only [List.map_cons, List.map_nil]
  rw [hpredict_box t hx]
  simp [isnanR, isfiniteR, row_box0, List.enum_map_snd]

/-- The 1-by-1 IoU matrix of the stationary run: a single entry 1. -/
noncomputable def ones11 : Matrix (Fin 1) (Fin ([det0].length)) ℝ := Matrix.of ![![1]]

/-- Its thresholding at 0.3. -/
def ones11n : Matrix (Fin 1) (Fin ([det0].length)) ℕ := Matrix.of ![![1]]

lemma hM1 : iou_batch dets1 (fun j : Fin ([det0].length) => [det0].get j) = ones11 := by
  funext i j
  fin_cases i
  fin_cases j
  show iou_batch dets1 (fun j : Fin ([det0].length) => [det0].get j) 0 ⟨0, by decide⟩ = 1
  norm_num [iou_batch, dets1, det0, List.get]

lemma hthresh1 : threshMatrix ones11 (3 / 10) = ones11n := by
  funext i j
  fin_cases i
  fin_cases j
  show (if (3 / 10 : ℝ) < 1 then (1:ℕ) else 0) = 1
  norm_num

lemma assoc_det0 :
    associate_detections_to_trackers trivSolver dets1
      (fun j : Fin ([det0].length) => [det0].get j) (3 / 10)
      = ⟨[((0 : Fin 1), (⟨0, by decide⟩ : Fin ([det0].length)))], [], []⟩ := by
  simp only [associate_detections_to_trackers]
  rw [if_neg (by decide : ¬ ([det0].length = 0)),
    if_pos (by decide : 0 < min 1 [det0].length)]
  rw [hM1, hthresh1]
  rw [if_pos (show fastPathCond ones11n by unfold ones11n; decide),
    show wherePairs ones11n = [((0 : Fin 1), (⟨0, by decide⟩ : Fin ([det0].length)))] from rfl]
  simp only [assocFinalize, List.foldl_cons, List.foldl_nil]
  rw [if_neg (show ¬ (ones11
      ((0 : Fin 1), (⟨0, by decide⟩ : Fin ([det0].length))).1
      ((0 : Fin 1), (⟨0, by decide⟩ : Fin ([det0].length))).2
      < 3 / 10) by show ¬ ((1:ℝ) < 3 / 10); norm_num)]
  rfl

/-- One step of `Sort.update` on a state holding one live tracker whose state
is the stationary fixed point `x0v`: the detection matches the predicted box
(IoU 1 on the fast path), so the tracker is corrected and no new tracker is
created. -/
lemma live_single_matched (S : SortTracker) (t : KalmanBoxTracker)
    (hS : S.trackers = [t]) (hθ : S.iou_threshold = 3 / 10) (hx : t.kf_x = x0v) :
    SortTracker.liveAfterCreate trivSolver S dets1
      = ([((t.predict).2).update det0], S.count) := by
  simp only [SortTracker.liveAfterCreate]
  rw [hS, hθ, predictPhase_single t hx]
  rw [assoc_det0]
  rfl

/-- Assembling a full `Sort.update` step from its `liveAfterCreate` value. -/
lemma update_of_live (solver : Solver) (S : SortTracker) {n : ℕ}
    (dets : Fin n → Det ℝ) (L : List KalmanBoxTracker) (c : ℕ)
    (h : SortTracker.liveAfterCreate solver S dets = (L, c)) :
    SortTracker.update solver S dets
      = ({ S with trackers := ((emissionLoop S.max_age S.min_hits L).2),
                  frame_count := S.frame_count + 1,
                  count := c },
         packageRet (emissionLoop S.max_age S.min_hits L).1) := by
  unfold SortTracker.update
  rw [h]

/-- The tracker created at step 1 of the stationary run. -/
noncomputable def trk0 : KalmanBoxTracker := KalmanBoxTracker.mk0 det0 0

/-- One full tracking step with the stationary detection. -/
noncomputable def sortStep (S : SortTracker) : SortTracker × ℕ × List (List ℝ) :=
  SortTracker.update trivSolver S dets1

/-- Tracker state after step 1. -/
noncomputable def S1 : SortTracker := (sortStep S0).1

/-- The live track after step 2 (predicted and corrected once). -/
noncomputable def T2 : KalmanBoxTracker := ((trk0.predict).2).update det0

/-- Tracker state after step 2. -/
noncomputable def S2 : SortTracker := (sortStep S1).1

/-- The live track after step 3. -/
noncomputable def T3 : KalmanBoxTracker := ((T2.predict).2).update det0

/-- Tracker state after step 3. -/
noncomputable def S3 : SortTracker := (sortStep S2).1

/-- The live track after step 4. -/
noncomputable def T4 : KalmanBoxTracker := ((T3.predict).2).update det0

lemma h1 : sortStep S0 = (⟨1, 3, 3 / 10, [trk0], 1, 1⟩, (6, [])) := rfl

lemma hS1 : S1 = ⟨1, 3, 3 / 10, [trk0], 1, 1⟩ := congrArg Prod.fst h1

lemma hT2x : T2.kf_x = x0v := hupdate_x _ (hpredict_x trk0 trk0_kf_x)

lemma hlive1 : SortTracker.liveAfterCreate trivSolver S1 dets1 = ([T2], 1) := by
  rw [live_single_matched S1 trk0 (by rw [hS1]) (by rw [hS1]) trk0_kf_x,
    show S1.count = 1 from by rw [hS1]]
  rfl

lemma h2 : sortStep S1 = (⟨1, 3, 3 / 10, [T2], 2, 1⟩, (6, [])) := by
  show SortTracker.update trivSolver S1 dets1 = _
  rw [update_of_live trivSolver S1 dets1 [T2] 1 hlive1, hS1]
  rfl

lemma hS2 : S2 = ⟨1, 3, 3 / 10, [T2], 2, 1⟩ := congrArg Prod.fst h2

lemma hT3x : T3.kf_x = x0v := hupdate_x _ (hpredict_x T2 hT2x)

lemma hlive2 : SortTracker.liveAfterCreate trivSolver S2 dets1 = ([T3], 1) := by
  rw [live_single_matched S2 T2 (by rw [hS2]) (by rw [hS2]) hT2x,
    show S2.count = 1 from by rw [hS2]]
  rfl

lemma h3 : sortStep S2 = (⟨1, 3, 3 / 10, [T3], 3, 1⟩, (6, [])) := by
  show SortTracker.update trivSolver S2 dets1 = _
  rw [update_of_live trivSolver S2 dets1 [T3] 1 hlive2, hS2]
  rfl

lemma hS3 : S3 = ⟨1, 3, 3 / 10, [T3], 3, 1⟩ := congrArg Prod.fst h3

lemma hT4x : T4.kf_x = x0v := hupdate_x _ (hpredict_x T3 hT3x)

lemma hlive3 : SortTracker.liveAfterCreate trivSolver S3 dets1 = ([T4], 1) := by
  rw [live_single_matched S3 T3 (by rw [hS3]) (by rw [hS3]) hT3x,
    show S3.count = 1 from by rw [hS3]]
  rfl

lemma h4 : sortStep S3 = (⟨1, 3, 3 / 10, [T4], 4, 1⟩,
    (T4.record.length, [T4.record])) := by
  show SortTracker.update trivSolver S3 dets1 = _
  rw [update_of_live trivSolver S3 dets1 [T4] 1 hlive3, hS3]
  rfl

lemma ofFn_box0 : List.ofFn box0 = [(0:ℝ), 0, 10, 10, 9 / 10] := by
  simp [box0, List.ofFn_succ]

lemma hT4record : T4.record = [0, 0, 10, 10, 9 / 10, 0, 0, 0, 0, 0] := by
  unfold KalmanBoxTracker.record KalmanBoxTracker.get_state
  rw [hT4x, hbox0, ofFn_box0, show T4.detclass = (0:ℝ) from rfl,
    show T4.id = 0 from rfl]
  simp [x0v, cons_val_five, cons_val_six, cons_val_seven]

/-- C3 is false as stated: from the empty tracker with `min_hits = 3` and
`max_age = 1`, feeding the identical detection `(0,0,10,10,0.9,0)` on three
consecutive steps emits nothing at each of the three steps — in particular
step 3 does not emit one track, because `hits` is then 2 < 3 (creation does
not count as a hit and only `update()` increments `hits`). -/
theorem C3_counterexample :
    (sortStep S0).2 = (6, []) ∧ (sortStep S1).2 = (6, []) ∧ (sortStep S2).2 = (6, [])
    ∧ ((sortStep S2).2.2).length ≠ 1 := by
  refine ⟨congrArg Prod.snd h1, congrArg Prod.snd h2, congrArg Prod.snd h3, ?_⟩
  rw [congrArg Prod.snd h3]
  simp

/-- C3 (amended): the stationary run emits nothing at steps 1, 2 and 3, and
first emits at step 4: exactly one record, for the single live track whose
identity is the one assigned at creation (`S0.count = 0`), with box exactly
`(0, 0, 10, 10)`, confidence 0.9, class 0 and zero velocities. -/
theorem C3_stationary_run_amended :
    (sortStep S0).2 = (6, []) ∧ (sortStep S1).2 = (6, []) ∧ (sortStep S2).2 = (6, [])
    ∧ (SortTracker.liveAfterCreate trivSolver S3 dets1).1 = [T4]
    ∧ T4.id = S0.count
    ∧ (sortStep S3).2 = (10, [T4.record])
    ∧ T4.record = [0, 0, 10, 10, 9 / 10, 0, 0, 0, 0, 0] := by
  refine ⟨congrArg Prod.snd h1, congrArg Prod.snd h2, congrArg Prod.snd h3,
    congrArg Prod.fst hlive3, rfl, ?_, hT4record⟩
  rw [congrArg Prod.snd h4, record_length T4]

/-- A live tracker already unmatched for one step (`time_since_update = 1`),
about to be matched again. -/
noncomputable def tA : KalmanBoxTracker :=
  { KalmanBoxTracker.mk0 det0 0 with time_since_update := 1 }

/-- A state holding `tA` with `max_age = 1`. -/
noncomputable def SA : SortTracker :=
  { max_age := 1, min_hits := 3, iou_threshold := 3 / 10, trackers := [tA],
    frame_count := 0, count := 1 }

lemma tA_kf_x : tA.kf_x = x0v := trk0_kf_x

/-- C2 is false as stated: a track whose `time_since_update` right after the
step's prediction exceeds `max_age` (here 2 > 1) is nevertheless kept in the
live set when the association matches it in the same step, because
`update()` resets the count to 0 before the eviction check. -/
theorem C2_counterexample :
    ¬ (∀ (solver : Solver) (S : SortTracker) (n : ℕ) (dets : Fin n → Det ℝ)
        (t : KalmanBoxTracker),
        t ∈ (SortTracker.predictPhase S.trackers).1 →
        ((∀ u ∈ (SortTracker.update solver S dets).1.trackers, u.id ≠ t.id)
          ↔ S.max_age < t.time_since_update)) := by
  intro h
  have hmem : (tA.predict).2 ∈ (SortTracker.predictPhase SA.trackers).1 := by
    rw [show SA.trackers = [tA] from rfl, predictPhase_single tA tA_kf_x]
    exact List.mem_singleton.mpr rfl
  have hiff := h trivSolver SA 1 dets1 ((tA.predict).2) hmem
  have hrhs : SA.max_age < ((tA.predict).2).time_since_update := by
    show (1:ℕ) < 2
    omega
  have hlhs := hiff.mpr hrhs
  have hliveA : SortTracker.liveAfterCreate trivSolver SA dets1
      = ([((tA.predict).2).update det0], SA.count) :=
    live_single_matched SA tA rfl rfl tA_kf_x
  have hfinal : ((tA.predict).2).update det0
      ∈ (SortTracker.update trivSolver SA dets1).1.trackers := by
    rw [update_trackers_eq,
      show (SortTracker.liveAfterCreate trivSolver SA dets1).1
        = [((tA.predict).2).update det0] from congrArg Prod.fst hliveA]
    exact List.mem_filter.mpr ⟨List.mem_singleton.mpr rfl, rfl⟩
  exact hlhs _ hfinal rfl

end ConcreteRuns

section Degeneracy

/-- IEEE-style value for analyzing the degeneracy filter of `Sort.update`
(sort.py lines 179-189): a finite rational, NaN, or a signed infinity.  The
exact-arithmetic Kalman model cannot produce the special values; in the
float implementation they arise in `convert_x_to_bbox` from the square root
of a negative product or from division by a zero width, so here the
predicted positions are taken as given data. -/
inductive RVal : Type
  | fin (q : ℚ)
  | nan
  | pinf
  | ninf
  deriving DecidableEq

/-- The `np.isnan` test of line 185: true only on NaN. -/
def RVal.isnan : RVal → Bool
  | .nan => true
  | _ => false

/-- Finiteness as tested by `np.ma.masked_invalid` on line 187, which masks
NaN and both infinities. -/
def RVal.isfinite : RVal → Bool
  | .fin _ => true
  | _ => false

/-- Line 185: `to_del` collects the indices whose predicted position
contains a NaN. -/
def degToDel (preds : List (Fin 5 → RVal)) : List ℕ :=
  (preds.enum.filter fun e => (List.finRange 5).any fun k => (e.2 k).isnan).map Prod.fst

/-- Line 187: `np.ma.compress_rows(np.ma.masked_invalid(trks))` keeps the
rows all of whose entries are finite (the appended sixth cell is the finite
constant 0 and never masks a row by itself). -/
def degTrks (preds : List (Fin 5 → RVal)) : List (Fin 5 → RVal) :=
  preds.filter fun p => (List.finRange 5).all fun k => (p k).isfinite

/-- Lines 188-189: popping the `to_del` indices in reverse removes exactly
those original positions from the live list. -/
def degLive (preds : List (Fin 5 → RVal)) : List (Fin 5 → RVal) :=
  (preds.enum.filter fun e => decide (e.1 ∉ degToDel preds)).map Prod.snd

lemma mem_degToDel_of {preds : List (Fin 5 → RVal)} {e : ℕ × (Fin 5 → RVal)}
    (he : e ∈ preds.enum) (hq : ((List.finRange 5).any fun k => (e.2 k).isnan) = true) :
    e.1 ∈ degToDel preds := by
  unfold degToDel
  exact List.mem_map.mpr ⟨e, List.mem_filter.mpr ⟨he, hq⟩, rfl⟩

lemma of_mem_degToDel {preds : List (Fin 5 → RVal)} {e : ℕ × (Fin 5 → RVal)}
    (he : e ∈ preds.enum) (hi : e.1 ∈ degToDel preds) :
    ((List.finRange 5).any fun k => (e.2 k).isnan) = true := by
  unfold degToDel at hi
  obtain ⟨e2, he2, hfst⟩ := List.mem_map.mp hi
  obtain ⟨he2e, hq2⟩ := List.mem_filter.mp he2
  have h1 := List.mem_enum_iff_getElem?.mp he
  have h2 := List.mem_enum_iff_getElem?.mp he2e
  rw [hfst] at h2
  rw [h1] at h2
  have h3 : e.2 = e2.2 := by injection h2
  rw [h3]
  exact hq2

/-- C5 (amended): before association, exactly the tracks whose predicted box
contains a NaN are removed from the live set; a track whose predicted box is
NaN-free stays live, and if it contains an infinity it is nevertheless
excluded from the compressed association rows — so the live list and the
association input can disagree. -/
theorem C5_degeneracy_amended (preds : List (Fin 5 → RVal)) :
    (∀ p ∈ preds, (∃ k, (p k).isnan = true) → p ∉ degLive preds)
    ∧ (∀ p ∈ preds, (∀ k, ¬ (p k).isnan = true) → p ∈ degLive preds)
    ∧ (∀ p ∈ preds, (∀ k, ¬ (p k).isnan = true) → (∃ k, ¬ (p k).isfinite = true) →
        p ∈ degLive preds ∧ p ∉ degTrks preds) := by
  have hkeep : ∀ p ∈ preds, (∀ k, ¬ (p k).isnan = true) → p ∈ degLive preds := by
    intro p hp hnn
    obtain ⟨i, hi, hget⟩ := List.mem_iff_getElem.mp hp
    have he : ((i, p) : ℕ × (Fin 5 → RVal)) ∈ preds.enum := by
      rw [List.mem_enum_iff_getElem?]
      simp [List.getElem?_eq_getElem hi, hget]
    refine List.mem_map.mpr ⟨(i, p), List.mem_filter.mpr ⟨he, ?_⟩, rfl⟩
    simp only [decide_eq_true_eq]
    intro hidel
    have := of_mem_degToDel he hidel
    rw [List.any_eq_true] at this
    obtain ⟨k, -, hk⟩ := this
    exact hnn k hk
  refine ⟨?_, hkeep, ?_⟩
  · intro p hp ⟨k, hk⟩ hmem
    obtain ⟨e, hef, hsnd⟩ := List.mem_map.mp hmem
    obtain ⟨hee, hdec⟩ := List.mem_filter.mp hef
    simp only [decide_eq_true_eq] at hdec
    apply hdec
    apply mem_degToDel_of hee
    rw [List.any_eq_true]
    exact ⟨k, List.mem_finRange k, by rw [hsnd]; exact hk⟩
  · intro p hp hnn ⟨k, hk⟩
    refine ⟨hkeep p hp hnn, ?_⟩
    intro hmem
    have := (List.mem_filter.mp hmem).2
    rw [List.all_eq_true] at this
    exact hk (this k (List.mem_finRange k))

/-- A predicted position containing a positive infinity but no NaN. -/
def infRow : Fin 5 → RVal := ![RVal.pinf, RVal.fin 0, RVal.fin 0, RVal.fin 0, RVal.fin 0]

/-- C5 is false as stated: a track whose predicted box contains an infinity
(but no NaN) is not removed from the live set — line 185 tests `np.isnan`
only — even though `masked_invalid` drops its row from the association
input, so association does not operate on exactly the live tracks. -/
theorem C5_counterexample :
    ¬ (∀ (preds : List (Fin 5 → RVal)) (p : Fin 5 → RVal), p ∈ preds →
        (∃ k, ¬ (p k).isfinite = true) →
        p ∉ degLive preds ∧ degTrks preds = degLive preds) := by
  intro h
  have := h [infRow] infRow (List.mem_singleton.mpr rfl) ⟨0, by decide⟩
  exact this.1 (by decide)

/-- Witness for the amended C5 at the concrete infinite row. -/
theorem C5_degeneracy_amended_witness :
    (infRow ∈ [infRow] ∧ (∀ k, ¬ (infRow k).isnan = true)
      ∧ (∃ k, ¬ (infRow k).isfinite = true))
    ∧ (infRow ∈ degLive [infRow] ∧ infRow ∉ degTrks [infRow]) :=
  ⟨⟨by decide, by decide, ⟨0, by decide⟩⟩,
    (C5_degeneracy_amended [infRow]).2.2 infRow (by decide) (by decide) ⟨0, by decide⟩⟩

end Degeneracy

end SortTrack
